import Mathlib

/-!
Shallow embedding of the account-ledger core of the Trashure app
(`src/App.jsx`): the per-user account record, the reward-crediting flow
(`confirmRecycle`), voucher redemption (`redeemVoucher`), lazy account
creation (the `onValue` callback on `users/{uid}`), and the two derived
views (leaderboard, per-user history).

Modelling conventions:
* JavaScript numbers used as counters (`points`, `coins`, `scanCount`,
  `cost`, `timestamp`) are modelled as `Int` — integer arithmetic only is
  performed on them in the source, and the redemption transaction can
  drive `coins` negative, so `Nat` would be unfaithful.
* The classifier probability is only ever copied (never computed with),
  so it is modelled as `Rat`.
* Firebase's `runTransaction` is an atomic read-modify-write on the value
  at a ref; its callback is embedded as a pure
  `Option Account → Option Account` function (`none` models absent data,
  exactly the `null` the callback guards against).
* `runTransaction`/`set` return promises that `confirmRecycle` and
  `redeemVoucher` never `await`; whether the asynchronous write commits is
  environmental and is passed in as a `Bool` flag.  Crucially, the
  synchronous control flow of the source (console errors, alerts, view
  navigation) cannot depend on those flags, and the embedding reflects
  that.
* `userData` handed to `redeemVoucher` is the React state mirror fed by a
  subscription; it can be stale relative to the authoritative store, so it
  is a separate argument from the store itself.
-/

/-- Per-user account record at `users/{uid}` (created at
`src/App.jsx:160-167`). -/
structure Account where
  uid : String
  displayName : String
  email : String
  points : Int
  coins : Int
  scanCount : Int
deriving DecidableEq, Repr

/-- One classifier guess, as returned by `model.classify`
(`src/App.jsx:266`): a class name and a probability score. -/
structure Prediction where
  className : String
  probability : Rat
deriving DecidableEq, Repr

/-- One history entry at `history/{uid}/{recordId}` as written by
`confirmRecycle` (`src/App.jsx:311-317`). -/
structure ScanRecord where
  itemName : String
  category : String
  confidence : Rat
  timestamp : Int
  pointsAwarded : Int
deriving DecidableEq, Repr

/-- A static voucher catalog entry (`src/App.jsx:46-51`). -/
structure Voucher where
  id : String
  title : String
  cost : Int
  color : String
deriving DecidableEq, Repr

/-- The mock voucher catalog `VOUCHERS` (`src/App.jsx:46-51`). -/
def VOUCHERS : List Voucher :=
  [ { id := "v1", title := "5% Off Coffee", cost := 50, color := "bg-amber-500" },
    { id := "v2", title := "Free Eco-Bag", cost := 150, color := "bg-green-600" },
    { id := "v3", title := "Cinema Ticket", cost := 500, color := "bg-purple-600" },
    { id := "v4", title := "10% Grocery", cost := 1000, color := "bg-blue-600" } ]

/-- The authoritative store slice for one user: the account at
`users/{uid}` (absent = `none`) and the history list at `history/{uid}`
in insertion (push-key) order. -/
structure UserStore where
  account : Option Account
  history : List ScanRecord
deriving DecidableEq, Repr

/-- The authenticated Firebase user object as consumed by the account
creation callback: `u.uid`, `u.displayName` and `u.email` may be `null`
(`none`). -/
structure AuthUser where
  uid : String
  displayName : Option String
  email : Option String
deriving DecidableEq, Repr

/-- JavaScript `x || d` on a nullable string: `null` and the empty string
are falsy. -/
def jsOrStr (x : Option String) (d : String) : String :=
  match x with
  | none => d
  | some s => if s = "" then d else s

/-- The reward constant `const points = 10` in `confirmRecycle`
(`src/App.jsx:292`). -/
def rewardPoints : Int := 10

/-- The reward constant `const coins = 5` in `confirmRecycle`
(`src/App.jsx:293`). -/
def rewardCoins : Int := 5

/-- The `runTransaction` callback of `confirmRecycle`
(`src/App.jsx:298-305`): if the current data is non-null, add the reward
to `points`/`coins` and bump `scanCount`; a null current value is
returned unchanged (no account is created). The `|| 0` fallbacks in the
source guard missing fields, which the typed record always has. -/
def confirmTxn : Option Account → Option Account
  | some a =>
      some { a with
        points := a.points + rewardPoints
        coins := a.coins + rewardCoins
        scanCount := a.scanCount + 1 }
  | none => none

/-- The `runTransaction` callback of `redeemVoucher`
(`src/App.jsx:336-341`): if the current data is non-null, subtract the
voucher cost from `coins` — unconditionally, with no balance re-check and
no clamp; a null current value is returned unchanged. -/
def redeemTxn (cost : Int) : Option Account → Option Account
  | some a => some { a with coins := a.coins - cost }
  | none => none

/-- Observable outcome of one `confirmRecycle` call: the store afterwards,
the error surfaced by the synchronous flow (a `console.error` at the
guard, or the `TypeError` thrown by `scanResult[0]` on an empty array —
`none` when the flow runs to completion), and whether the flow advanced
the UI past the confirm step (`setCurrentView` to home,
`src/App.jsx:322`). -/
structure ConfirmOutcome where
  store : UserStore
  reportedError : Option String
  advancedHome : Bool
deriving DecidableEq, Repr

/-- `confirmRecycle` (`src/App.jsx:281-326`).  `user` is the Firebase
user (`none` = signed out), `scanResult` the classifier predictions
(`none` = no scan yet; note an *empty* predictions array is truthy in JS
and passes the guard, after which `scanResult[0].className` throws before
any write).  `accountWriteOk` / `historyWriteOk` say whether the
un-awaited `runTransaction` / `set` promises commit; the synchronous flow
does not depend on them. `now` is the server-assigned timestamp. -/
def confirmRecycle (user : Option String) (scanResult : Option (List Prediction))
    (accountWriteOk historyWriteOk : Bool) (now : Int) (st : UserStore) :
    ConfirmOutcome :=
  match user, scanResult with
  | none, _ =>
      { store := st, reportedError := some "User or scanResult is null",
        advancedHome := false }
  | some _, none =>
      { store := st, reportedError := some "User or scanResult is null",
        advancedHome := false }
  | some _, some [] =>
      { store := st,
        reportedError := some "TypeError: cannot read className of undefined",
        advancedHome := false }
  | some _, some (p :: _) =>
      let st1 : UserStore :=
        if accountWriteOk then { st with account := confirmTxn st.account } else st
      let rec1 : ScanRecord :=
        { itemName := p.className, category := "Recyclable",
          confidence := p.probability, timestamp := now,
          pointsAwarded := rewardPoints }
      let st2 : UserStore :=
        if historyWriteOk then { st1 with history := st1.history ++ [rec1] } else st1
      { store := st2, reportedError := none, advancedHome := true }

/-- Observable outcome of one `redeemVoucher` call: the store afterwards
and the alert shown (`none` when the confirm dialog was declined and the
function fell through silently). -/
structure RedeemOutcome where
  store : UserStore
  alertMsg : Option String
deriving DecidableEq, Repr

/-- The success alert string of `redeemVoucher` (`src/App.jsx:342`). -/
def redeemedMsg : String := "Voucher Redeemed! Check your email (mock)."

/-- `redeemVoucher` (`src/App.jsx:328-344`).  `userData` is the *cached*
session mirror of the account (React state fed by the `onValue`
subscription), which the pre-check reads; `st` is the authoritative
store the transaction runs against — the two can disagree.  `confirmed`
is the result of the `confirm(...)` dialog; `writeOk` is whether the
un-awaited `runTransaction` promise commits. -/
def redeemVoucher (userData : Option Account) (confirmed writeOk : Bool)
    (v : Voucher) (st : UserStore) : RedeemOutcome :=
  match userData with
  | none => { store := st, alertMsg := some "Not enough coins!" }
  | some ud =>
      if ud.coins < v.cost then
        { store := st, alertMsg := some "Not enough coins!" }
      else if confirmed then
        { store :=
            if writeOk then { st with account := redeemTxn v.cost st.account } else st,
          alertMsg := some redeemedMsg }
      else
        { store := st, alertMsg := none }

/-- The account-creation `onValue` callback on `users/{uid}`
(`src/App.jsx:155-171`), playing the role the spec calls
`getOrCreate`: if a snapshot exists it is used as-is (no write);
otherwise a fresh record with derived display name and zeroed counters
is written with `set`.  Returns the `userData` the session sees and the
store afterwards. -/
def getOrCreate (u : AuthUser) (st : UserStore) : Account × UserStore :=
  match st.account with
  | some data => (data, st)
  | none =>
      let newUserData : Account :=
        { uid := u.uid
          displayName :=
            jsOrStr u.displayName
              (jsOrStr (u.email.map fun e => (e.splitOn "@").headD "") "EcoWarrior")
          email := u.email.getD ""
          points := 0
          coins := 0
          scanCount := 0 }
      (newUserData, { st with account := some newUserData })

/-- The two `applyDelta`-class mutations the app performs on an account:
the reward credit of `confirmRecycle` and the coin decrement of
`redeemVoucher`, both running as `runTransaction` callbacks. -/
inductive LedgerOp where
  | credit : LedgerOp
  | redeem : Int → LedgerOp
deriving DecidableEq, Repr

/-- Serialization of one atomic `runTransaction` commit on an existing
account: the callback runs on the current value and its result is the
new value. -/
def applyOp (a : Account) : LedgerOp → Account
  | LedgerOp.credit => (confirmTxn (some a)).getD a
  | LedgerOp.redeem c => (redeemTxn c (some a)).getD a

/-- Net `points` delta of a ledger operation. -/
def opPointsDelta : LedgerOp → Int
  | LedgerOp.credit => rewardPoints
  | LedgerOp.redeem _ => 0

/-- Net `coins` delta of a ledger operation. -/
def opCoinsDelta : LedgerOp → Int
  | LedgerOp.credit => rewardCoins
  | LedgerOp.redeem c => -c

/-- Net `scanCount` delta of a ledger operation. -/
def opScanCountDelta : LedgerOp → Int
  | LedgerOp.credit => 1
  | LedgerOp.redeem _ => 0

/-- Insert `x` into `l` in front of the first element whose key is
strictly below `x`'s key: in a descending-sorted list this places `x`
*after* every element with an equal or larger key, which is exactly the
placement a stable descending sort gives a later-arriving element. -/
def insOrd {α : Type} (k : α → Int) (x : α) : List α → List α
  | [] => [x]
  | y :: ys => if k y < k x then x :: y :: ys else y :: insOrd k x ys

/-- Stable descending sort by an integer key.  JavaScript
`Array.prototype.sort` with comparator `(a, b) => key(b) - key(a)` is
required by the ES spec to be a stable sort producing exactly a
descending-by-key order; a left-to-right stable insertion sort computes
the same list. -/
def sortDesc {α : Type} (k : α → Int) (l : List α) : List α :=
  l.foldl (fun acc x => insOrd k x acc) []

/-- The history `onValue` listener body (`src/App.jsx:211-218`): collect
the user's records in push-key (insertion) order and sort them by
`timestamp` descending with the stable JS sort. An absent history node
yields an empty snapshot, hence the empty list. -/
def historyView (logs : List ScanRecord) : List ScanRecord :=
  sortDesc (fun r => r.timestamp) logs

/-- The leaderboard `onValue` listener body (`src/App.jsx:201-208`):
collect every account, sort by `points` descending with the stable JS
sort, and keep the first 10. -/
def leaderboardView (users : List Account) : List Account :=
  (sortDesc (fun a => a.points) users).take 10

/-! ### Concrete sample values used by counterexamples and witnesses -/

/-- A sample account with a given coin balance. -/
def sampleAcct (c : Int) : Account :=
  { uid := "u1", displayName := "Ana", email := "ana@example.com",
    points := 0, coins := c, scanCount := 0 }

/-- A store whose account holds 3 coins. -/
def sampleStore : UserStore := { account := some (sampleAcct 3), history := [] }

/-- A store whose account holds 0 coins. -/
def sampleStoreZero : UserStore := { account := some (sampleAcct 0), history := [] }

/-- A store with no account record. -/
def emptyStore : UserStore := { account := none, history := [] }

/-- A sample classifier prediction. -/
def samplePred : Prediction := { className := "water bottle", probability := 9 / 10 }

/-- The first catalog voucher (cost 50). -/
def firstVoucher : Voucher :=
  { id := "v1", title := "5% Off Coffee", cost := 50, color := "bg-amber-500" }

/-- A sample authenticated user. -/
def sampleAuth : AuthUser :=
  { uid := "u1", displayName := some "Ana", email := some "ana@example.com" }

/-! ### Helper lemmas about the stable descending sort -/

theorem insOrd_perm {α : Type} (k : α → Int) (x : α) (l : List α) :
    (insOrd k x l).Perm (x :: l) := by
  induction l with
  | nil => simp [insOrd]
  | cons y ys ih =>
    by_cases h : k y < k x
    · simp [insOrd, h]
    · simp only [insOrd, if_neg h]
      exact (ih.cons y).trans (List.Perm.swap x y ys)

theorem mem_insOrd {α : Type} (k : α → Int) (x z : α) (l : List α) :
    z ∈ insOrd k x l ↔ z = x ∨ z ∈ l := by
  rw [(insOrd_perm k x l).mem_iff]
  simp

theorem insOrd_pairwise {α : Type} (k : α → Int) (x : α) {l : List α}
    (hs : l.Pairwise (fun a b => k b ≤ k a)) :
    (insOrd k x l).Pairwise (fun a b => k b ≤ k a) := by
  induction l with
  | nil => simp [insOrd]
  | cons y ys ih =>
    rw [List.pairwise_cons] at hs
    obtain ⟨hy, hys⟩ := hs
    by_cases h : k y < k x
    · simp only [insOrd, if_pos h]
      refine List.Pairwise.cons ?_ (List.Pairwise.cons hy hys)
      intro b hb
      rcases List.mem_cons.mp hb with rfl | hb
      · exact le_of_lt h
      · exact (hy b hb).trans (le_of_lt h)
    · simp only [insOrd, if_neg h]
      refine List.Pairwise.cons ?_ (ih hys)
      intro b hb
      rcases (mem_insOrd k x b ys).mp hb with rfl | hb
      · exact le_of_not_lt h
      · exact hy b hb

theorem insOrd_filter_hit {α : Type} (k : α → Int) (t : Int) (x : α) {l : List α}
    (hx : k x = t) (hs : l.Pairwise (fun a b => k b ≤ k a)) :
    (insOrd k x l).filter (fun a => k a == t) =
      l.filter (fun a => k a == t) ++ [x] := by
  subst hx
  induction l with
  | nil => simp [insOrd]
  | cons y ys ih =>
    rw [List.pairwise_cons] at hs
    obtain ⟨hy, hys⟩ := hs
    by_cases h : k y < k x
    · have hnil : (y :: ys).filter (fun a => k a == k x) = [] := by
        rw [List.filter_eq_nil_iff]
        intro a ha
        simp only [beq_iff_eq]
        rcases List.mem_cons.mp ha with rfl | ha
        · omega
        · have := hy a ha
          omega
      simp only [insOrd, if_pos h]
      simp [List.filter_cons, hnil]
    · simp only [insOrd, if_neg h]
      by_cases hyt : k y = k x
      · simp [List.filter_cons, hyt, ih hys]
      · simp [List.filter_cons, hyt, ih hys]

theorem insOrd_filter_miss {α : Type} (k : α → Int) (t : Int) (x : α) (l : List α)
    (hx : ¬ k x = t) :
    (insOrd k x l).filter (fun a => k a == t) = l.filter (fun a => k a == t) := by
  induction l with
  | nil => simp [insOrd, hx]
  | cons y ys ih =>
    by_cases h : k y < k x
    · simp only [insOrd, if_pos h]
      simp [List.filter_cons, hx]
    · simp only [insOrd, if_neg h]
      simp [List.filter_cons, ih]

theorem sortDescAux_spec {α : Type} (k : α → Int) (t : Int) (l : List α) :
    ∀ acc : List α, acc.Pairwise (fun a b => k b ≤ k a) →
      (List.foldl (fun acc x => insOrd k x acc) acc l).Pairwise (fun a b => k b ≤ k a)
      ∧ (List.foldl (fun acc x => insOrd k x acc) acc l).Perm (l ++ acc)
      ∧ (List.foldl (fun acc x => insOrd k x acc) acc l).filter (fun a => k a == t)
          = acc.filter (fun a => k a == t) ++ l.filter (fun a => k a == t) := by
  induction l with
  | nil =>
    intro acc hs
    exact ⟨hs, by simp, by simp⟩
  | cons x l ih =>
    intro acc hs
    obtain ⟨h1, h2, h3⟩ := ih (insOrd k x acc) (insOrd_pairwise k x hs)
    simp only [List.foldl_cons]
    refine ⟨h1, ?_, ?_⟩
    · have hp1 : (List.foldl (fun acc x => insOrd k x acc) (insOrd k x acc) l).Perm
          (l ++ (x :: acc)) :=
        h2.trans (List.Perm.append_left l (insOrd_perm k x acc))
      exact hp1.trans List.perm_middle
    · rw [h3]
      by_cases hx : k x = t
      · rw [insOrd_filter_hit k t x hx hs]
        simp [List.filter_cons, hx, List.append_assoc]
      · rw [insOrd_filter_miss k t x acc hx]
        simp [List.filter_cons, hx]

theorem sortDesc_pairwise {α : Type} (k : α → Int) (l : List α) :
    (sortDesc k l).Pairwise (fun a b => k b ≤ k a) :=
  (sortDescAux_spec k 0 l [] List.Pairwise.nil).1

theorem sortDesc_perm {α : Type} (k : α → Int) (l : List α) :
    (sortDesc k l).Perm l := by
  have h := (sortDescAux_spec k 0 l [] List.Pairwise.nil).2.1
  simpa [sortDesc] using h

theorem sortDesc_filter {α : Type} (k : α → Int) (t : Int) (l : List α) :
    (sortDesc k l).filter (fun a => k a == t) = l.filter (fun a => k a == t) := by
  have h := (sortDescAux_spec k t l [] List.Pairwise.nil).2.2
  simpa [sortDesc] using h

/-! ### Per-operation delta lemmas -/

theorem applyOp_points (a : Account) (op : LedgerOp) :
    (applyOp a op).points = a.points + opPointsDelta op := by
  cases op <;> simp [applyOp, confirmTxn, redeemTxn, opPointsDelta]

theorem applyOp_coins (a : Account) (op : LedgerOp) :
    (applyOp a op).coins = a.coins + opCoinsDelta op := by
  cases op
  · simp [applyOp, confirmTxn, opCoinsDelta]
  · simp [applyOp, redeemTxn, opCoinsDelta]
    ring

theorem applyOp_scanCount (a : Account) (op : LedgerOp) :
    (applyOp a op).scanCount = a.scanCount + opScanCountDelta op := by
  cases op <;> simp [applyOp, confirmTxn, redeemTxn, opScanCountDelta]

/-! ### Claim theorems -/

/-- Claim C4: for every finite sequence of `applyDelta`-class updates
(reward credits and voucher redemptions) committed against the same
account, the final `points`, `coins` and `scanCount` equal the initial
values plus the sum of all applied deltas — no update is lost, because
each mutation is a `runTransaction` read-modify-write whose callback is
applied to the current value, never a blind absolute write.  Concurrent
transactions are serialized by the store, so an arbitrary interleaving
is exactly some list of callback applications. -/
theorem no_lost_updates (ops : List LedgerOp) (a : Account) :
    (List.foldl applyOp a ops).points = a.points + (ops.map opPointsDelta).sum
    ∧ (List.foldl applyOp a ops).coins = a.coins + (ops.map opCoinsDelta).sum
    ∧ (List.foldl applyOp a ops).scanCount
        = a.scanCount + (ops.map opScanCountDelta).sum := by
  induction ops generalizing a with
  | nil => simp
  | cons op ops ih =>
    obtain ⟨h1, h2, h3⟩ := ih (applyOp a op)
    simp only [List.foldl_cons, List.map_cons, List.sum_cons, h1, h2, h3,
      applyOp_points, applyOp_coins, applyOp_scanCount]
    refine ⟨by ring, by ring, by ring⟩

/-- Claim C3: `confirmRecycle` called with an identified user, a
non-empty classification result and an existing account record credits
exactly +10 points, +5 coins, +1 scanCount, and appends exactly one
`ScanRecord` with `pointsAwarded = 10` to the user's history. -/
theorem confirmScan_credits_reward (uid : String) (p : Prediction)
    (ps : List Prediction) (now : Int) (st : UserStore) (a : Account)
    (hst : st.account = some a) :
    (confirmRecycle (some uid) (some (p :: ps)) true true now st).store.account
      = some { a with
          points := a.points + 10
          coins := a.coins + 5
          scanCount := a.scanCount + 1 }
    ∧ (confirmRecycle (some uid) (some (p :: ps)) true true now st).store.history
      = st.history ++ [{ itemName := p.className
                         category := "Recyclable"
                         confidence := p.probability
                         timestamp := now
                         pointsAwarded := 10 }]
    ∧ (confirmRecycle (some uid) (some (p :: ps)) true true now st).store.history.length
      = st.history.length + 1 := by
  simp [confirmRecycle, confirmTxn, hst, rewardPoints, rewardCoins]

/-- Witness for C3 at a concrete call. -/
theorem confirmScan_credits_reward_witness :
    (confirmRecycle (some "u1") (some [samplePred]) true true 100 sampleStore).store.account
      = some { sampleAcct 3 with
          points := (sampleAcct 3).points + 10
          coins := (sampleAcct 3).coins + 5
          scanCount := (sampleAcct 3).scanCount + 1 } :=
  (confirmScan_credits_reward "u1" samplePred [] 100 sampleStore (sampleAcct 3) rfl).1

/-- Claim C5: `confirmRecycle` invoked with an absent user, a null scan
result, or an empty classification array mutates nothing (neither
account nor history), reports an error (the guard's `console.error`, or
the `TypeError` thrown by `scanResult[0]` on the empty array — which in
JS passes the `!scanResult` guard but throws before any write), and does
not advance the UI. -/
theorem confirmScan_rejects_invalid (user : Option String)
    (scanResult : Option (List Prediction)) (aw hw : Bool) (now : Int)
    (st : UserStore)
    (h : user = none ∨ scanResult = none ∨ scanResult = some []) :
    (confirmRecycle user scanResult aw hw now st).store = st
    ∧ (confirmRecycle user scanResult aw hw now st).reportedError.isSome = true
    ∧ (confirmRecycle user scanResult aw hw now st).advancedHome = false := by
  rcases h with rfl | rfl | rfl
  · cases scanResult with
    | none => simp [confirmRecycle]
    | some l => cases l <;> simp [confirmRecycle]
  · cases user <;> simp [confirmRecycle]
  · cases user <;> simp [confirmRecycle]

/-- Witness for C5 at a concrete call (signed-out user). -/
theorem confirmScan_rejects_invalid_witness :
    (confirmRecycle none (some [samplePred]) true true 100 sampleStore).store
      = sampleStore :=
  (confirmScan_rejects_invalid none (some [samplePred]) true true 100 sampleStore
    (Or.inl rfl)).1

/-- Claim C10: if the account record is absent when `confirmRecycle`'s
transaction runs, the null guard leaves the account store unchanged — no
account is created and nothing is credited — yet a `ScanRecord` is still
appended unconditionally, so a history entry can exist without a
corresponding credit. -/
theorem confirmScan_absent_account_history_only (uid : String) (p : Prediction)
    (ps : List Prediction) (now : Int) (st : UserStore)
    (hst : st.account = none) :
    (confirmRecycle (some uid) (some (p :: ps)) true true now st).store.account = none
    ∧ (confirmRecycle (some uid) (some (p :: ps)) true true now st).store.history
      = st.history ++ [{ itemName := p.className
                         category := "Recyclable"
                         confidence := p.probability
                         timestamp := now
                         pointsAwarded := 10 }] := by
  simp [confirmRecycle, confirmTxn, hst, rewardPoints]

/-- Witness for C10 at a concrete call on a store with no account. -/
theorem confirmScan_absent_account_history_only_witness :
    (confirmRecycle (some "u1") (some [samplePred]) true true 100 emptyStore).store.account
      = none :=
  (confirmScan_absent_account_history_only "u1" samplePred [] 100 emptyStore rfl).1

/-- Claim C6 (refuted, code bug): `confirmRecycle` never awaits its
`runTransaction` / `set` promises, so a failed ledger write is *not*
surfaced — the flow reports no error and advances past the confirm step
exactly as on success, even when neither write commits.  Evaluated here
at a concrete failing input: both writes fail, yet `reportedError` is
`none`, the UI advances home, and the store is unchanged (no credit was
actually paid). -/
theorem confirmScan_write_failure_swallowed :
    (confirmRecycle (some "u1") (some [samplePred]) false false 100 sampleStore).reportedError
      = none
    ∧ (confirmRecycle (some "u1") (some [samplePred]) false false 100 sampleStore).advancedHome
      = true
    ∧ (confirmRecycle (some "u1") (some [samplePred]) false false 100 sampleStore).store
      = sampleStore := by
  decide

/-- Case analysis of the store `redeemVoucher` leaves behind: either it
is untouched (missing cache, failed pre-check, declined dialog, or
failed write) or the pre-check passed on the *cached* balance, the
dialog was confirmed, the write committed, and the transaction applied
the unconditional decrement. -/
theorem redeemVoucher_store_cases (userData : Option Account)
    (confirmed writeOk : Bool) (v : Voucher) (st : UserStore) :
    (redeemVoucher userData confirmed writeOk v st).store = st
    ∨ ∃ ud, userData = some ud ∧ v.cost ≤ ud.coins ∧ confirmed = true
        ∧ writeOk = true
        ∧ (redeemVoucher userData confirmed writeOk v st).store
            = { st with account := redeemTxn v.cost st.account } := by
  cases userData with
  | none => left; rfl
  | some ud =>
    by_cases hlt : ud.coins < v.cost
    · left
      simp [redeemVoucher, hlt]
    · cases confirmed with
      | false =>
        left
        simp [redeemVoucher, hlt]
      | true =>
        cases writeOk with
        | false =>
          left
          simp [redeemVoucher, hlt]
        | true =>
          right
          exact ⟨ud, rfl, not_lt.mp hlt, rfl, rfl, by simp [redeemVoucher, hlt]⟩

/-- Claim C1 (amended): the reward credit never decreases `coins`, and a
redemption preserves `coins ≥ 0` *provided the cached balance the
pre-check reads is the current stored balance* — but the storage layer
itself does not clamp: the transaction decrements unconditionally, so
only the (possibly stale) pre-check stands between `coins` and a
negative value. -/
theorem coins_nonneg_without_stale_cache (a : Account) (ha : 0 ≤ a.coins)
    (v : Voucher) (confirmed writeOk : Bool) (st : UserStore)
    (hst : st.account = some a) :
    (∀ b, confirmTxn (some a) = some b → a.coins ≤ b.coins)
    ∧ (∀ b, (redeemVoucher st.account confirmed writeOk v st).store.account = some b →
        0 ≤ b.coins) := by
  constructor
  · intro b hb
    simp only [confirmTxn, Option.some.injEq] at hb
    subst hb
    simp [rewardCoins]
  · intro b hb
    rcases redeemVoucher_store_cases st.account confirmed writeOk v st with hcase | hcase
    · rw [hcase, hst, Option.some.injEq] at hb
      subst hb
      exact ha
    · obtain ⟨ud, hud, hcost, _, _, hstore⟩ := hcase
      rw [hst, Option.some.injEq] at hud
      subst hud
      rw [hstore] at hb
      simp only [hst, redeemTxn, Option.some.injEq] at hb
      subst hb
      simp
      omega

/-- Witness for C1 (amended) at a concrete redemption whose fresh-cache
pre-check rejects, leaving the 3-coin balance untouched. -/
theorem coins_nonneg_without_stale_cache_witness :
    0 ≤ (sampleAcct 3).coins :=
  (coins_nonneg_without_stale_cache (sampleAcct 3) (by decide) firstVoucher true true
    sampleStore rfl).2 (sampleAcct 3) (by decide)

/-- Counterexample to C1 as stated: with a stale cached balance of 50
the pre-check passes, the transaction decrements the stored 3-coin
balance unconditionally, and `coins` ends at -47 — below zero and not
clamped to zero. -/
theorem coins_negative_counterexample :
    (redeemVoucher (some (sampleAcct 50)) true true firstVoucher sampleStore).store.account
      = some { sampleAcct 3 with coins := -47 }
    ∧ ({ sampleAcct 3 with coins := -47 } : Account).coins < 0 := by
  decide

/-- Claim C2 (amended): `redeemVoucher` succeeds (shows the redeemed
alert) iff the *cached session balance* `userData.coins` is at least the
voucher cost and the dialog is confirmed — the stored balance is never
re-checked inside the atomic decrement, which subtracts unconditionally.
On success with a committed write the stored account's `coins` decreases
by exactly the cost; on rejection (and on a declined dialog) the store
is unchanged. -/
theorem redeem_checks_cached_balance (userData : Option Account)
    (confirmed writeOk : Bool) (v : Voucher) (st : UserStore) :
    ((redeemVoucher userData confirmed writeOk v st).alertMsg = some redeemedMsg
      ↔ ∃ ud, userData = some ud ∧ v.cost ≤ ud.coins ∧ confirmed = true)
    ∧ (∀ a, st.account = some a → writeOk = true →
        (redeemVoucher userData confirmed writeOk v st).alertMsg = some redeemedMsg →
        (redeemVoucher userData confirmed writeOk v st).store.account
          = some { a with coins := a.coins - v.cost })
    ∧ ((redeemVoucher userData confirmed writeOk v st).alertMsg ≠ some redeemedMsg →
        (redeemVoucher userData confirmed writeOk v st).store = st) := by
  have hne : ¬ ("Not enough coins!" = redeemedMsg) := by decide
  cases userData with
  | none =>
    refine ⟨?_, ?_, ?_⟩
    · simp [redeemVoucher, hne]
    · intro a _ _ hmsg
      simp [redeemVoucher, hne] at hmsg
    · intro _
      rfl
  | some ud =>
    by_cases hlt : ud.coins < v.cost
    · refine ⟨?_, ?_, ?_⟩
      · simp [redeemVoucher, hlt, hne]
      · intro a _ _ hmsg
        simp [redeemVoucher, hlt, hne] at hmsg
      · intro _
        simp [redeemVoucher, hlt]
    · cases confirmed with
      | false =>
        refine ⟨?_, ?_, ?_⟩
        · simp [redeemVoucher, hlt]
        · intro a _ _ hmsg
          simp [redeemVoucher, hlt] at hmsg
        · intro _
          simp [redeemVoucher, hlt]
      | true =>
        refine ⟨?_, ?_, ?_⟩
        · simp [redeemVoucher, hlt]
          exact not_lt.mp hlt
        · intro a hsta hw _
          subst hw
          simp [redeemVoucher, hlt, hsta, redeemTxn]
        · intro hmsg
          simp [redeemVoucher, hlt] at hmsg

/-- Witness for C2 (amended): a concrete redemption whose cached balance
covers the cost shows the success alert. -/
theorem redeem_checks_cached_balance_witness :
    (redeemVoucher (some (sampleAcct 100)) true true firstVoucher sampleStoreZero).alertMsg
      = some redeemedMsg :=
  (redeem_checks_cached_balance (some (sampleAcct 100)) true true firstVoucher
    sampleStoreZero).1.mpr ⟨sampleAcct 100, rfl, by decide, rfl⟩

/-- Counterexample to C2 as stated: the stored balance is 0, strictly
below the cost 50 at the instant of the atomic decrement, yet the
redemption succeeds (stale cached balance 100 passes the pre-check) and
the stored balance is driven to -50. -/
theorem redeem_insufficient_success_counterexample :
    (sampleAcct 0).coins < firstVoucher.cost
    ∧ (redeemVoucher (some (sampleAcct 100)) true true firstVoucher sampleStoreZero).alertMsg
        = some redeemedMsg
    ∧ (redeemVoucher (some (sampleAcct 100)) true true firstVoucher sampleStoreZero).store.account
        = some { sampleAcct 0 with coins := -50 } := by
  decide

/-- Claim C7: account creation is idempotent — when a snapshot already
exists, the `onValue` callback uses it as-is and writes nothing, and
repeating the call keeps returning that same account unchanged; when
the account is absent, a fresh record is created with zeroed counters
(`points = coins = scanCount = 0`), the user's id, the store's history
untouched, and a display name derived from the profile (the non-empty
`displayName` when present). -/
theorem getOrCreate_spec (u : AuthUser) (st : UserStore) :
    (∀ a, st.account = some a → getOrCreate u st = (a, st))
    ∧ (st.account = none →
        (getOrCreate u st).1.points = 0
        ∧ (getOrCreate u st).1.coins = 0
        ∧ (getOrCreate u st).1.scanCount = 0
        ∧ (getOrCreate u st).1.uid = u.uid
        ∧ (getOrCreate u st).2.account = some (getOrCreate u st).1
        ∧ (getOrCreate u st).2.history = st.history
        ∧ getOrCreate u (getOrCreate u st).2 = ((getOrCreate u st).1, (getOrCreate u st).2)
        ∧ ∀ d, u.displayName = some d → d ≠ "" →
            (getOrCreate u st).1.displayName = d) := by
  constructor
  · intro a h
    simp [getOrCreate, h]
  · intro h
    refine ⟨?_, ?_, ?_, ?_, ?_, ?_, ?_, ?_⟩
    · simp [getOrCreate, h]
    · simp [getOrCreate, h]
    · simp [getOrCreate, h]
    · simp [getOrCreate, h]
    · simp [getOrCreate, h]
    · simp [getOrCreate, h]
    · simp [getOrCreate, h]
    · intro d hd hne
      simp [getOrCreate, h, hd, jsOrStr, hne]

/-- Witness for C7: creating an account for a fresh user yields zeroed
points. -/
theorem getOrCreate_spec_witness :
    (getOrCreate sampleAuth emptyStore).1.points = 0 :=
  ((getOrCreate_spec sampleAuth emptyStore).2 rfl).1

/-- Claim C8: the history listener yields the user's records sorted by
`timestamp` descending, with ties kept in insertion order (the filter at
any fixed timestamp is exactly the insertion-order sublist), it emits a
permutation of the stored records (nothing invented or dropped), and an
empty history yields the empty sequence rather than an error. -/
theorem historyView_sorted_stable (logs : List ScanRecord) :
    (historyView logs).Perm logs
    ∧ (historyView logs).Pairwise (fun a b => b.timestamp ≤ a.timestamp)
    ∧ (∀ t : Int, (historyView logs).filter (fun r => r.timestamp == t)
        = logs.filter (fun r => r.timestamp == t))
    ∧ historyView [] = [] :=
  ⟨sortDesc_perm _ logs, sortDesc_pairwise _ logs,
    fun t => sortDesc_filter _ t logs, rfl⟩

/-- Claim C9: every leaderboard emission is the full account snapshot
sorted by `points` descending and truncated to the top 10: it is
descending-sorted, its length is `min 10 n`, every entry is one of the
accounts, and any account left out is dominated by 10 emitted accounts
with at least its points — so an account whose points newly place it in
the top 10 appears in the recomputed emission. -/
theorem leaderboardView_spec (users : List Account) :
    (leaderboardView users).Pairwise (fun a b => b.points ≤ a.points)
    ∧ (leaderboardView users).length = min 10 users.length
    ∧ (∀ a, a ∈ leaderboardView users → a ∈ users)
    ∧ (∀ a, a ∈ users → a ∉ leaderboardView users →
        (leaderboardView users).length = 10
        ∧ ∀ b, b ∈ leaderboardView users → a.points ≤ b.points) := by
  have hp := sortDesc_pairwise (fun a : Account => a.points) users
  have hperm := sortDesc_perm (fun a : Account => a.points) users
  refine ⟨?_, ?_, ?_, ?_⟩
  · exact List.Pairwise.sublist (List.take_sublist 10 _) hp
  · rw [leaderboardView, List.length_take, hperm.length_eq]
  · intro a ha
    exact hperm.mem_iff.mp (List.take_subset 10 _ ha)
  · intro a ha hnot
    rw [leaderboardView] at hnot
    have has : a ∈ sortDesc (fun a : Account => a.points) users :=
      hperm.mem_iff.mpr ha
    have hmem : a ∈ (sortDesc (fun a : Account => a.points) users).take 10
        ∨ a ∈ (sortDesc (fun a : Account => a.points) users).drop 10 := by
      rw [← List.take_append_drop 10 (sortDesc (fun a : Account => a.points) users)] at has
      exact List.mem_append.mp has
    have hdrop : a ∈ (sortDesc (fun a : Account => a.points) users).drop 10 :=
      hmem.resolve_left hnot
    have hlen : 10 < (sortDesc (fun a : Account => a.points) users).length := by
      by_contra hle
      push_neg at hle
      rw [List.drop_eq_nil_of_le hle] at hdrop
      exact absurd hdrop (List.not_mem_nil a)
    constructor
    · rw [leaderboardView, List.length_take]
      omega
    · intro b hb
      have hsplit : List.Pairwise (fun a b : Account => b.points ≤ a.points)
          ((sortDesc (fun a : Account => a.points) users).take 10
            ++ (sortDesc (fun a : Account => a.points) users).drop 10) := by
        rw [List.take_append_drop]
        exact hp
      exact (List.pairwise_append.mp hsplit).2.2 b hb a hdrop

/-- Witness for C9: the sole account of a one-account snapshot is listed
and belongs to the snapshot. -/
theorem leaderboardView_spec_witness :
    sampleAcct 3 ∈ [sampleAcct 3] :=
  (leaderboardView_spec [sampleAcct 3]).2.2.1 (sampleAcct 3) (by decide)
